import Mathlib

/-!
# The ship design dialog of the Qt client

A shallow embedding of `src/QtClient/ship_design_dialog.cpp`: the dialog's
member functions become functions on an explicit dialog state, the widgets the
functions touch become fields of that state, and the game engine the dialog
queries (components, rule constants, a player's design slots) is a parameter.

* A `long` / `int` value is an `Int`; `|` and `&` are `Int.lor` and `Int.land`
  (two's complement on unbounded integers, which agrees with C on every width).
* A `const char*` that may be `NULL`, and a `const Ship*` that may be `NULL`,
  are `Option`s.
* A list or combo box is the list of its items, in display order.
* A function that may fail to return is `Option`-valued.
-/

namespace FreeStars

/-! ## Declarations the translation unit takes from headers -/

/-- The enumerators of `ship_design_dialog.h`, a header that is not part of the
sources at hand: their values are parameters. -/
structure ModeIds where
  SDDDM_SHIPS : Int
  SDDDM_STARBASES : Int
  SDDVM_EXISTING : Int
  SDDVM_AVAILABLE : Int
  SDDVM_ENEMY : Int
  SDDVM_COMPONENTS : Int

/-- Enumerators of one enumeration denote different values. -/
def ModeIds.Distinct (M : ModeIds) : Prop :=
  M.SDDDM_SHIPS ≠ M.SDDDM_STARBASES ∧
  M.SDDVM_EXISTING ≠ M.SDDVM_AVAILABLE ∧ M.SDDVM_EXISTING ≠ M.SDDVM_ENEMY ∧
  M.SDDVM_EXISTING ≠ M.SDDVM_COMPONENTS ∧ M.SDDVM_AVAILABLE ≠ M.SDDVM_ENEMY ∧
  M.SDDVM_AVAILABLE ≠ M.SDDVM_COMPONENTS ∧ M.SDDVM_ENEMY ≠ M.SDDVM_COMPONENTS

/-- The argument of `setDesignMode` is one of the enumerated design modes. -/
def ModeIds.IsDesignMode (M : ModeIds) (d : Int) : Prop :=
  d = M.SDDDM_SHIPS ∨ d = M.SDDDM_STARBASES

/-- The argument of `setViewMode` is one of the enumerated view modes. -/
def ModeIds.IsViewMode (M : ModeIds) (v : Int) : Prop :=
  v = M.SDDVM_EXISTING ∨ v = M.SDDVM_AVAILABLE ∨ v = M.SDDVM_ENEMY ∨ v = M.SDDVM_COMPONENTS

instance (M : ModeIds) : Decidable M.Distinct := by
  unfold ModeIds.Distinct
  infer_instance

instance (M : ModeIds) (d : Int) : Decidable (M.IsDesignMode d) := by
  unfold ModeIds.IsDesignMode
  infer_instance

instance (M : ModeIds) (v : Int) : Decidable (M.IsViewMode v) := by
  unfold ModeIds.IsViewMode
  infer_instance

/-- The `CT_*` component type constants of the game engine's headers (not part
of the sources at hand): their values are parameters. -/
structure CompTypes where
  CT_ARMOR : Int
  CT_SHIELD : Int
  CT_WEAPON : Int
  CT_BOMB : Int
  CT_ELEC : Int
  CT_ENGINE : Int
  CT_MINELAY : Int
  CT_MINER : Int
  CT_SCANNER : Int
  CT_MECH : Int
  CT_ORBITAL : Int
  CT_HULL : Int
  CT_BASE : Int

/-- A ship or starbase design, as far as the dialog reads it. -/
structure Ship where
  GetName : String

/-- The player the dialog was opened for: its design slots. A `NULL` result of
`GetShipDesign(i)` / `GetBaseDesign(i)` is `none`. -/
structure Player where
  GetShipDesign : Int → Option Ship
  GetBaseDesign : Int → Option Ship

/-- A component record of the game engine, as far as the dialog reads it. -/
structure Component where
  GetName : String
  GetType : Int
  IsBuildable : Player → Bool
  IsType : Int → Bool

/-- What the dialog reads from the game engine and from the toolkit:
`TheGame->GetComponents()`, the two rule constants as stored into `int max`,
and the translation `tr` of a source string. -/
structure Game where
  modes : ModeIds
  types : CompTypes
  tr : String → String
  GetComponents : List Component
  MaxShipDesigns : Int
  MaxBaseDesigns : Int

/-! ## The category tables -/

/-- The `struct CompCategory`: `title` is `none` for `NULL`. -/
structure CompCategory where
  title : Option String
  mask : Int

/-- The expression `a | b | c | ...`, associated to the left as in C. -/
def bitOr (a : Int) (rest : List Int) : Int :=
  rest.foldl Int.lor a

/-- The table `static CompCategory starbaseCategories[]`, terminator included. -/
def starbaseCategories (T : CompTypes) : List CompCategory :=
  [ ⟨some "All", bitOr T.CT_ARMOR [T.CT_SHIELD, T.CT_WEAPON, T.CT_ELEC, T.CT_MECH, T.CT_ORBITAL]⟩,
    ⟨some "Armor", T.CT_ARMOR⟩,
    ⟨some "Shields", T.CT_SHIELD⟩,
    ⟨some "Weapons", T.CT_WEAPON⟩,
    ⟨some "Electrical", T.CT_ELEC⟩,
    ⟨some "Mechanical", T.CT_MECH⟩,
    ⟨some "Orbital", T.CT_ORBITAL⟩,
    ⟨none, 0⟩ ]

/-- The table `static CompCategory shipCategories[]`, terminator included. -/
def shipCategories (T : CompTypes) : List CompCategory :=
  [ ⟨some "All", bitOr T.CT_ARMOR [T.CT_SHIELD, T.CT_WEAPON, T.CT_BOMB, T.CT_ELEC, T.CT_ENGINE,
      T.CT_MINELAY, T.CT_MINER, T.CT_SCANNER, T.CT_MECH]⟩,
    ⟨some "Armor", T.CT_ARMOR⟩,
    ⟨some "Shields", T.CT_SHIELD⟩,
    ⟨some "Weapons", T.CT_WEAPON⟩,
    ⟨some "Bombs", T.CT_BOMB⟩,
    ⟨some "Electrical", T.CT_ELEC⟩,
    ⟨some "Engines", T.CT_ENGINE⟩,
    ⟨some "Mine layers", T.CT_MINELAY⟩,
    ⟨some "Mining Robots", T.CT_MINER⟩,
    ⟨some "Scanner", T.CT_SCANNER⟩,
    ⟨some "Mechanical", T.CT_MECH⟩,
    ⟨none, 0⟩ ]

/-! ## The dialog state -/

/-- The widgets of the generated `Ui` class that the member functions touch:
the enabled flag of the three design buttons, the current index of
`stackedWidget2` (a stack with the pages 0 and 1, so that `setCurrentIndex`
with either takes effect), the items of the three item views (an item of the
category box carries its `QVariant` data), and the number of connections of the
category box's `activated(int)` signal. -/
structure Widgets where
  copyDesignButton : Bool
  editDesignButton : Bool
  deleteDesignButton : Bool
  stackedWidget2 : Int
  chooseDesignBox : List String
  chooseComponentBox1 : List (String × Int)
  componentListWidget1 : List String
  activatedSlots : Nat

/-- The members of `class ShipDesignDialog` next to its widgets. -/
structure Dialog extends Widgets where
  player : Player
  currentDesignMode : Int
  currentViewMode : Int

/-! ## The member functions -/

/-- The call `chooseComponentBox1->itemData(index)` followed by `toULongLong()` and the
conversion to `long`: the mask stored with the item (`QVariant((qlonglong)mask)`
read back is the stored `long`), and 0 for the invalid `QVariant` of an index
without an item. -/
def itemMask (box : List (String × Int)) (index : Int) : Int :=
  if index < 0 then 0
  else match box[index.toNat]? with
    | some item => item.2
    | none => 0

/-- The loop of `setComponentCategory` over the component collection, from the
iterator position given by the remaining components. -/
def addComponents (player : Player) (mask : Int) : List Component → List String → List String
  | [], items => items
  | c :: rest, items =>
    if c.IsBuildable player && Int.land c.GetType mask != 0 then
      addComponents player mask rest (items ++ [c.GetName])
    else
      addComponents player mask rest items

/-- The slot `ShipDesignDialog::setComponentCategory(int index)`. -/
def setComponentCategory (G : Game) (s : Dialog) (index : Int) : Dialog :=
  let mask := itemMask s.chooseComponentBox1 index
  { s with componentListWidget1 := addComponents s.player mask G.GetComponents [] }

/-- What one run of `populateExistingDesigns` does to the player's slots. -/
inductive SlotEvent where
  | shipLookup (i : Int)
  | baseLookup (i : Int)
  | nameRead (i : Int)
deriving DecidableEq, Repr

/-- The loop `for (long i = 0 ; i != max ; i++)` of `populateExistingDesigns`,
from the value `i`, with the slot events so far and the items of
`chooseDesignBox`. With `max < i` the condition `i != max` stays true until
`i++` overflows `long`, which has no defined result: `none`. -/
def existingLoop (player : Player) (ships : Bool) (max : Int) (i : Int)
    (log : List SlotEvent) (items : List String) : Option (List SlotEvent × List String) :=
  if i = max then some (log, items)
  else if max < i then none
  else
    let ship := if ships then player.GetShipDesign i else player.GetBaseDesign i
    let log1 := log ++ [if ships then SlotEvent.shipLookup i else SlotEvent.baseLookup i]
    match ship with
    | some sh => existingLoop player ships max (i + 1) (log1 ++ [SlotEvent.nameRead i]) (items ++ [sh.GetName])
    | none => existingLoop player ships max (i + 1) log1 items
termination_by (max - i).toNat
decreasing_by all_goals omega

/-- The `int max` of `populateExistingDesigns`. -/
def designLimit (G : Game) (designMode : Int) : Int :=
  if designMode = G.modes.SDDDM_SHIPS then G.MaxShipDesigns else G.MaxBaseDesigns

/-- The slot events of `populateExistingDesigns(designMode)`. -/
def existingDesignEvents (G : Game) (s : Dialog) (designMode : Int) : Option (List SlotEvent) :=
  (existingLoop s.player (decide (designMode = G.modes.SDDDM_SHIPS)) (designLimit G designMode) 0
    [] s.chooseDesignBox).map Prod.fst

/-- The function `ShipDesignDialog::populateExistingDesigns(int designMode)`. -/
def populateExistingDesigns (G : Game) (s : Dialog) (designMode : Int) : Option Dialog :=
  (existingLoop s.player (decide (designMode = G.modes.SDDDM_SHIPS)) (designLimit G designMode) 0
    [] s.chooseDesignBox).map (fun r => { s with chooseDesignBox := r.2 })

/-- The loop of `populateAvailableHullTypes` over the component collection. -/
def addHulls (player : Player) (hullType : Int) : List Component → List String → List String
  | [], items => items
  | c :: rest, items =>
    if c.IsBuildable player && c.IsType hullType then
      addHulls player hullType rest (items ++ [c.GetName])
    else
      addHulls player hullType rest items

/-- The function `ShipDesignDialog::populateAvailableHullTypes(int designMode)`. -/
def populateAvailableHullTypes (G : Game) (s : Dialog) (designMode : Int) : Dialog :=
  let hullType := if designMode = G.modes.SDDDM_SHIPS then G.types.CT_HULL else G.types.CT_BASE
  { s with chooseDesignBox := addHulls s.player hullType G.GetComponents s.chooseDesignBox }

/-- The loop `while (categories->title != NULL)` of `switchMode`: one item per
entry, until the entry without a title. -/
def addCategories (tr : String → String) : List CompCategory → List (String × Int) → List (String × Int)
  | [], items => items
  | c :: rest, items =>
    match c.title with
    | none => items
    | some t => addCategories tr rest (items ++ [(tr t, c.mask)])

/-- Lines 98 to 114 of `switchMode`: leaving the old view mode. -/
def leaveView (G : Game) (s : Dialog) (oldViewMode newViewMode : Int) : Dialog :=
  if oldViewMode = G.modes.SDDVM_COMPONENTS then
    let s1 := { s with chooseComponentBox1 := [], activatedSlots := 0 }
    if newViewMode ≠ G.modes.SDDVM_COMPONENTS then
      { s1 with copyDesignButton := true, editDesignButton := true, deleteDesignButton := true }
    else s1
  else
    let s1 := { s with chooseDesignBox := [] }
    if oldViewMode = G.modes.SDDVM_AVAILABLE ∨ oldViewMode = G.modes.SDDVM_ENEMY then
      { s1 with deleteDesignButton := true }
    else s1

/-- Lines 118 to 146 of `switchMode`: entering the new view mode. -/
def enterView (G : Game) (s : Dialog) (newDesignMode oldViewMode newViewMode : Int) : Option Dialog :=
  if newViewMode = G.modes.SDDVM_COMPONENTS then
    let categories :=
      if newDesignMode = G.modes.SDDDM_SHIPS then shipCategories G.types else starbaseCategories G.types
    let s1 := { s with chooseComponentBox1 := addCategories G.tr categories s.chooseComponentBox1 }
    let s2 := { s1 with activatedSlots := s1.activatedSlots + 1 }
    let s3 := setComponentCategory G s2 0
    if oldViewMode ≠ G.modes.SDDVM_COMPONENTS then
      some { s3 with copyDesignButton := false, editDesignButton := false, deleteDesignButton := false }
    else some s3
  else
    let populated :=
      if newViewMode = G.modes.SDDVM_EXISTING then populateExistingDesigns G s newDesignMode
      else if newViewMode = G.modes.SDDVM_AVAILABLE then some (populateAvailableHullTypes G s newDesignMode)
      else some s
    populated.map (fun s1 =>
      if newViewMode = G.modes.SDDVM_AVAILABLE ∨ newViewMode = G.modes.SDDVM_ENEMY then
        { s1 with deleteDesignButton := false }
      else s1)

/-- The function `ShipDesignDialog::switchMode(oldDesignMode, newDesignMode, oldViewMode,
newViewMode)`: lines 98 to 114, then line 116, then lines 118 to 146. -/
def switchMode (G : Game) (s : Dialog) (_oldDesignMode newDesignMode oldViewMode newViewMode : Int) :
    Option Dialog :=
  let s1 := leaveView G s oldViewMode newViewMode
  let s2 := { s1 with stackedWidget2 := if newViewMode = G.modes.SDDVM_COMPONENTS then 1 else 0 }
  enterView G s2 newDesignMode oldViewMode newViewMode

/-- The slot `ShipDesignDialog::setDesignMode(int mode)`. -/
def setDesignMode (G : Game) (s : Dialog) (mode : Int) : Option Dialog :=
  (switchMode G s s.currentDesignMode mode s.currentViewMode s.currentViewMode).map
    (fun s1 => { s1 with currentDesignMode := mode })

/-- The slot `ShipDesignDialog::setViewMode(int mode)`. -/
def setViewMode (G : Game) (s : Dialog) (mode : Int) : Option Dialog :=
  (switchMode G s s.currentDesignMode s.currentDesignMode s.currentViewMode mode).map
    (fun s1 => { s1 with currentViewMode := mode })

/-- The slot `ShipDesignDialog::copyDesign()`: the body is empty. -/
def copyDesign (s : Dialog) : Dialog := s

/-- The slot `ShipDesignDialog::editDesign()`: the body is empty. -/
def editDesign (s : Dialog) : Dialog := s

/-- The slot `ShipDesignDialog::deleteDesign()`: the body is empty. -/
def deleteDesign (s : Dialog) : Dialog := s

/-- The constructor `ShipDesignDialog::ShipDesignDialog(Player*, QWidget*)`:
the member initialisers, `setupUi` (whose generated code is not part of the
sources at hand: the widgets it leaves are the parameter `ui`; building the
signal mappers touches none of them), then `populateExistingDesigns`. -/
def construct (G : Game) (player : Player) (ui : Widgets) : Option Dialog :=
  populateExistingDesigns G
    { toWidgets := ui, player := player,
      currentDesignMode := G.modes.SDDDM_SHIPS, currentViewMode := G.modes.SDDVM_EXISTING }
    G.modes.SDDDM_SHIPS

/-! ## Sessions: the constructor followed by slot calls -/

/-- A call of one of the two mode slots. -/
inductive SlotCall where
  | designMode (mode : Int)
  | viewMode (mode : Int)
deriving DecidableEq, Repr

/-- The call passes an enumerated mode, as the signal mappers set up by the
constructor do. -/
def SlotCall.Enumerated (M : ModeIds) : SlotCall → Prop
  | SlotCall.designMode d => M.IsDesignMode d
  | SlotCall.viewMode v => M.IsViewMode v

instance (M : ModeIds) (c : SlotCall) : Decidable (c.Enumerated M) := by
  cases c <;> simp only [SlotCall.Enumerated] <;> infer_instance

/-- One slot call. -/
def SlotCall.run (G : Game) (s : Dialog) : SlotCall → Option Dialog
  | SlotCall.designMode d => setDesignMode G s d
  | SlotCall.viewMode v => setViewMode G s v

/-- A sequence of slot calls, in order, from the state `s`. -/
def runCalls (G : Game) (s : Dialog) : List SlotCall → Option Dialog
  | [] => some s
  | c :: rest => (c.run G s).bind (fun s1 => runCalls G s1 rest)

/-- The state after the constructor and then the slot calls `calls`. -/
def session (G : Game) (player : Player) (ui : Widgets) (calls : List SlotCall) : Option Dialog :=
  (construct G player ui).bind (fun s => runCalls G s calls)

/-! ## A sample game, for evaluating the functions -/

/-- Sample enumerator values: the ones C++ gives to enumerators without initialisers. -/
def sampleModes : ModeIds :=
  { SDDDM_SHIPS := 0, SDDDM_STARBASES := 1,
    SDDVM_EXISTING := 0, SDDVM_AVAILABLE := 1, SDDVM_ENEMY := 2, SDDVM_COMPONENTS := 3 }

/-- Sample component type constants: one bit each. -/
def sampleTypes : CompTypes :=
  { CT_ARMOR := 1, CT_SHIELD := 2, CT_WEAPON := 4, CT_BOMB := 8, CT_ELEC := 16, CT_ENGINE := 32,
    CT_MINELAY := 64, CT_MINER := 128, CT_SCANNER := 256, CT_MECH := 512, CT_ORBITAL := 1024,
    CT_HULL := 2048, CT_BASE := 4096 }

/-- A sample player: ship designs in slots 0 and 2, a base design in slot 1. -/
def samplePlayer : Player :=
  { GetShipDesign := fun i =>
      if i = 0 then some ⟨"Scout"⟩ else if i = 2 then some ⟨"Destroyer"⟩ else none,
    GetBaseDesign := fun i => if i = 1 then some ⟨"Fort"⟩ else none }

/-- A sample component of type `t`, with `IsType` testing for a common bit. -/
def sampleComponent (name : String) (t : Int) (buildable : Bool) : Component :=
  { GetName := name, GetType := t, IsBuildable := fun _ => buildable,
    IsType := fun ct => Int.land t ct != 0 }

/-- A sample game. -/
def sampleGame : Game :=
  { modes := sampleModes, types := sampleTypes, tr := fun t => t,
    GetComponents :=
      [ sampleComponent "Tritanium" 1 true, sampleComponent "Laser" 4 true,
        sampleComponent "Small Hull" 2048 true, sampleComponent "Death Star" 4096 false,
        sampleComponent "Orbital Fort" 4096 true, sampleComponent "Radar" 256 true,
        sampleComponent "Void Hull" 2048 false ],
    MaxShipDesigns := 3, MaxBaseDesigns := 2 }

/-- Sample widgets as left by `setupUi`: buttons enabled, page 0, no items. -/
def sampleUi : Widgets :=
  { copyDesignButton := true, editDesignButton := true, deleteDesignButton := true,
    stackedWidget2 := 0, chooseDesignBox := [], chooseComponentBox1 := [],
    componentListWidget1 := [], activatedSlots := 0 }

/-- A sample dialog state with items in every view. -/
def sampleDialog : Dialog :=
  { copyDesignButton := true, editDesignButton := false, deleteDesignButton := true,
    stackedWidget2 := 1, chooseDesignBox := ["Old"],
    chooseComponentBox1 := [("All", 5), ("Armor", 1), ("Scanner", 256)],
    componentListWidget1 := ["Stale"], activatedSlots := 1,
    player := samplePlayer, currentDesignMode := 0, currentViewMode := 3 }


/-- Sample slot calls: to the components view, to starbases, to the available hulls. -/
def sampleCalls : List SlotCall :=
  [SlotCall.viewMode 3, SlotCall.designMode 1, SlotCall.viewMode 1]

/-- The dialog state the sample session ends in. -/
def sampleAfter : Dialog :=
  { copyDesignButton := true, editDesignButton := true, deleteDesignButton := false,
    stackedWidget2 := 0, chooseDesignBox := ["Orbital Fort"], chooseComponentBox1 := [],
    componentListWidget1 := ["Tritanium", "Laser"], activatedSlots := 0,
    player := samplePlayer, currentDesignMode := 1, currentViewMode := 1 }

/-- Sample slot calls: to the components view, then to starbases. -/
def sampleComponentsCalls : List SlotCall :=
  [SlotCall.viewMode 3, SlotCall.designMode 1]

/-- The dialog state these calls end in: the components view of starbase mode. -/
def sampleInComponents : Dialog :=
  { copyDesignButton := false, editDesignButton := false, deleteDesignButton := false,
    stackedWidget2 := 1, chooseDesignBox := [],
    chooseComponentBox1 :=
      [("All", 1559), ("Armor", 1), ("Shields", 2), ("Weapons", 4), ("Electrical", 16),
        ("Mechanical", 512), ("Orbital", 1024)],
    componentListWidget1 := ["Tritanium", "Laser"], activatedSlots := 1,
    player := samplePlayer, currentDesignMode := 1, currentViewMode := 3 }

/-- The condition of `setComponentCategory` under which a component is listed. -/
def isListed (player : Player) (mask : Int) (c : Component) : Bool :=
  c.IsBuildable player && Int.land c.GetType mask != 0

/-! ## Vocabulary of the statements -/

/-- The slot `i` as `populateExistingDesigns` looks it up: a ship design slot
when `ships`, a base design slot otherwise. -/
def slotOf (player : Player) (ships : Bool) (i : Int) : Option Ship :=
  if ships then player.GetShipDesign i else player.GetBaseDesign i

/-- The events of one pass of the loop body of `populateExistingDesigns` at
slot `i`: the lookup, then the name read when the slot is not `NULL`. -/
def slotEvents (player : Player) (ships : Bool) (i : Int) : List SlotEvent :=
  (if ships then SlotEvent.shipLookup i else SlotEvent.baseLookup i) ::
    (match slotOf player ships i with
      | some _ => [SlotEvent.nameRead i]
      | none => [])

/-- The event is a slot lookup (`GetShipDesign(i)` or `GetBaseDesign(i)`). -/
def SlotEvent.isLookup : SlotEvent → Bool
  | SlotEvent.shipLookup _ => true
  | SlotEvent.baseLookup _ => true
  | SlotEvent.nameRead _ => false

/-- The slots `0, 1, ..., max - 1`, in increasing order. -/
def slotsBelow (max : Int) : List Int :=
  (List.range max.toNat).map (fun (k : Nat) => (k : Int))

/-- The items the loop of `switchMode` makes of a table: one `(tr title, mask)`
item for each entry that has a title. -/
def categoryItems (tr : String → String) (table : List CompCategory) : List (String × Int) :=
  table.filterMap (fun c => c.title.map (fun t => (tr t, c.mask)))

/-! ## The loops in closed form -/

theorem addComponents_eq (player : Player) (mask : Int) (cs : List Component) (items : List String) :
    addComponents player mask cs items =
      items ++ (cs.filter (fun c => c.IsBuildable player && Int.land c.GetType mask != 0)).map
        Component.GetName := by
  induction cs generalizing items with
  | nil => simp [addComponents]
  | cons c rest ih =>
    by_cases h : (c.IsBuildable player && Int.land c.GetType mask != 0) = true
    · simp [addComponents, h, ih, List.filter_cons]
    · simp [addComponents, h, ih, List.filter_cons]

theorem addHulls_eq (player : Player) (hullType : Int) (cs : List Component) (items : List String) :
    addHulls player hullType cs items =
      items ++ (cs.filter (fun c => c.IsBuildable player && c.IsType hullType)).map
        Component.GetName := by
  induction cs generalizing items with
  | nil => simp [addHulls]
  | cons c rest ih =>
    by_cases h : (c.IsBuildable player && c.IsType hullType) = true
    · simp [addHulls, h, ih, List.filter_cons]
    · simp [addHulls, h, ih, List.filter_cons]

theorem existingLoop_eq (player : Player) (ships : Bool) (n : Nat) :
    ∀ (i : Int) (log : List SlotEvent) (items : List String),
      existingLoop player ships (i + n) i log items =
        some (log ++ ((List.range n).map (fun (k : Nat) => i + (k : Int))).flatMap
                (slotEvents player ships),
              items ++ ((List.range n).map (fun (k : Nat) => i + (k : Int))).filterMap
                (fun j => (slotOf player ships j).map Ship.GetName)) := by
  induction n with
  | zero => intro i log items; rw [existingLoop]; simp
  | succ n ih =>
    intro i log items
    have h1 : i + ((n + 1 : Nat) : Int) = (i + 1) + (n : Int) := by push_cast; ring
    have hne : ¬ i = (i + 1) + (n : Int) := by omega
    have hlt : ¬ (i + 1) + (n : Int) < i := by omega
    rw [h1, existingLoop]
    simp only [hne, hlt, if_false]
    have hr : (List.range (n + 1)).map (fun (k : Nat) => i + (k : Int)) =
        i :: (List.range n).map (fun (k : Nat) => (i + 1) + (k : Int)) := by
      rw [List.range_succ_eq_map]
      simp [List.map_map, Function.comp_def]
      intro a _; ring
    rw [hr]
    cases hs : (if ships = true then player.GetShipDesign i else player.GetBaseDesign i) with
    | none =>
      simp only []
      rw [ih]
      simp [slotEvents, slotOf, hs]
    | some sh =>
      simp only []
      rw [ih]
      simp [slotEvents, slotOf, hs]

theorem existingLoop_neg (player : Player) (ships : Bool) (max : Int) (h : max < 0)
    (log : List SlotEvent) (items : List String) :
    existingLoop player ships max 0 log items = none := by
  rw [existingLoop]
  have : ¬ (0 : Int) = max := by omega
  simp [this, h]

/-! ## Bitwise facts on `Int` -/

theorem int_ne_zero_iff_testBit (x : Int) : x ≠ 0 ↔ ∃ k, Int.testBit x k = true := by
  constructor
  · intro hx
    cases x with
    | ofNat m =>
      have hm : m ≠ 0 := by
        intro h; apply hx; simp [h]
      obtain ⟨i, hi⟩ := Nat.ne_zero_implies_bit_true hm
      exact ⟨i, by simpa [Int.testBit] using hi⟩
    | negSucc m =>
      refine ⟨m, ?_⟩
      have : Nat.testBit m m = false := Nat.testBit_lt_two_pow (Nat.lt_two_pow m)
      simp [Int.testBit, this]
  · rintro ⟨k, hk⟩ h
    subst h
    simp [Int.testBit] at hk

theorem int_land_lor_ne_zero (t a b : Int) :
    Int.land t (Int.lor a b) ≠ 0 ↔ Int.land t a ≠ 0 ∨ Int.land t b ≠ 0 := by
  simp only [int_ne_zero_iff_testBit, Int.testBit_land, Int.testBit_lor, Bool.and_eq_true,
    Bool.or_eq_true]
  constructor
  · rintro ⟨k, ht, h | h⟩
    · exact Or.inl ⟨k, ht, h⟩
    · exact Or.inr ⟨k, ht, h⟩
  · rintro (⟨k, ht, h⟩ | ⟨k, ht, h⟩)
    · exact ⟨k, ht, Or.inl h⟩
    · exact ⟨k, ht, Or.inr h⟩


/-! ## What one call of `switchMode` does to each field -/


theorem populateExistingDesigns_frame (G : Game) (s s1 : Dialog) (m : Int)
    (h : populateExistingDesigns G s m = some s1) :
    ∃ items, s1 = { s with chooseDesignBox := items } := by
  unfold populateExistingDesigns at h
  simp only [Option.map_eq_some'] at h
  obtain ⟨r, _, rfl⟩ := h
  exact ⟨_, rfl⟩

theorem populateExistingDesigns_items (G : Game) (s s1 : Dialog) (m : Int)
    (h : populateExistingDesigns G s m = some s1) :
    (existingLoop s.player (decide (m = G.modes.SDDDM_SHIPS)) (designLimit G m) 0 []
      s.chooseDesignBox).map Prod.snd = some s1.chooseDesignBox := by
  unfold populateExistingDesigns at h
  simp only [Option.map_eq_some'] at h ⊢
  obtain ⟨r, hr, rfl⟩ := h
  exact ⟨r, hr, rfl⟩

theorem leaveView_fields (G : Game) (s : Dialog) (oV nV : Int) :
    (leaveView G s oV nV).player = s.player ∧
    (leaveView G s oV nV).currentDesignMode = s.currentDesignMode ∧
    (leaveView G s oV nV).currentViewMode = s.currentViewMode ∧
    (leaveView G s oV nV).stackedWidget2 = s.stackedWidget2 ∧
    (leaveView G s oV nV).copyDesignButton =
      (if oV = G.modes.SDDVM_COMPONENTS ∧ nV ≠ G.modes.SDDVM_COMPONENTS then true
       else s.copyDesignButton) ∧
    (leaveView G s oV nV).editDesignButton =
      (if oV = G.modes.SDDVM_COMPONENTS ∧ nV ≠ G.modes.SDDVM_COMPONENTS then true
       else s.editDesignButton) ∧
    (leaveView G s oV nV).deleteDesignButton =
      (if oV = G.modes.SDDVM_COMPONENTS then
        (if nV ≠ G.modes.SDDVM_COMPONENTS then true else s.deleteDesignButton)
       else if oV = G.modes.SDDVM_AVAILABLE ∨ oV = G.modes.SDDVM_ENEMY then true
       else s.deleteDesignButton) ∧
    (leaveView G s oV nV).chooseComponentBox1 =
      (if oV = G.modes.SDDVM_COMPONENTS then [] else s.chooseComponentBox1) ∧
    (leaveView G s oV nV).chooseDesignBox =
      (if oV = G.modes.SDDVM_COMPONENTS then s.chooseDesignBox else []) := by
  unfold leaveView
  split_ifs <;> simp_all

theorem enterView_some (G : Game) (s s1 : Dialog) (nD oV nV : Int)
    (h : enterView G s nD oV nV = some s1) :
    s1.player = s.player ∧ s1.currentDesignMode = s.currentDesignMode ∧
    s1.currentViewMode = s.currentViewMode ∧ s1.stackedWidget2 = s.stackedWidget2 ∧
    s1.copyDesignButton =
      (if nV = G.modes.SDDVM_COMPONENTS ∧ oV ≠ G.modes.SDDVM_COMPONENTS then false
       else s.copyDesignButton) ∧
    s1.editDesignButton =
      (if nV = G.modes.SDDVM_COMPONENTS ∧ oV ≠ G.modes.SDDVM_COMPONENTS then false
       else s.editDesignButton) ∧
    s1.deleteDesignButton =
      (if nV = G.modes.SDDVM_COMPONENTS then
        (if oV ≠ G.modes.SDDVM_COMPONENTS then false else s.deleteDesignButton)
       else if nV = G.modes.SDDVM_AVAILABLE ∨ nV = G.modes.SDDVM_ENEMY then false
       else s.deleteDesignButton) ∧
    s1.chooseComponentBox1 =
      (if nV = G.modes.SDDVM_COMPONENTS then
        addCategories G.tr (if nD = G.modes.SDDDM_SHIPS then shipCategories G.types
          else starbaseCategories G.types) s.chooseComponentBox1
       else s.chooseComponentBox1) := by
  unfold enterView at h
  by_cases hc : nV = G.modes.SDDVM_COMPONENTS
  · simp only [hc, if_true] at h ⊢
    split_ifs at h <;> (injection h with h; subst h; simp_all [setComponentCategory])
  · simp only [hc, if_false, Option.map_eq_some'] at h ⊢
    obtain ⟨a, ha, rfl⟩ := h
    have ha2 : ∃ items, a = { s with chooseDesignBox := items } := by
      split_ifs at ha
      · exact populateExistingDesigns_frame _ _ _ _ ha
      · injection ha with ha; subst ha; exact ⟨_, rfl⟩
      · injection ha with ha; subst ha; exact ⟨_, rfl⟩
    obtain ⟨items, rfl⟩ := ha2
    split_ifs <;> simp_all

theorem enterView_designs (G : Game) (s s1 : Dialog) (nD oV nV : Int)
    (h : enterView G s nD oV nV = some s1) :
    (nV = G.modes.SDDVM_COMPONENTS → s1.chooseDesignBox = s.chooseDesignBox) ∧
    (nV ≠ G.modes.SDDVM_COMPONENTS → nV = G.modes.SDDVM_EXISTING →
      (existingLoop s.player (decide (nD = G.modes.SDDDM_SHIPS)) (designLimit G nD) 0 []
        s.chooseDesignBox).map Prod.snd = some s1.chooseDesignBox) ∧
    (nV ≠ G.modes.SDDVM_COMPONENTS → nV ≠ G.modes.SDDVM_EXISTING →
      nV = G.modes.SDDVM_AVAILABLE →
      s1.chooseDesignBox = (populateAvailableHullTypes G s nD).chooseDesignBox) ∧
    (nV ≠ G.modes.SDDVM_COMPONENTS → nV ≠ G.modes.SDDVM_EXISTING →
      nV ≠ G.modes.SDDVM_AVAILABLE → s1.chooseDesignBox = s.chooseDesignBox) := by
  unfold enterView at h
  by_cases hc : nV = G.modes.SDDVM_COMPONENTS
  · simp only [hc, if_true] at h ⊢
    split_ifs at h <;> (injection h with h; subst h; simp_all [setComponentCategory])
  · simp only [hc, if_false, Option.map_eq_some'] at h ⊢
    obtain ⟨a, ha, rfl⟩ := h
    by_cases he : nV = G.modes.SDDVM_EXISTING
    · rw [if_pos he] at ha
      have := populateExistingDesigns_items _ _ _ _ ha
      split_ifs <;> simp_all
    · by_cases hav : nV = G.modes.SDDVM_AVAILABLE
      · rw [if_neg he, if_pos hav] at ha
        injection ha with ha; subst ha
        split_ifs <;> simp_all
      · rw [if_neg he, if_neg hav] at ha
        injection ha with ha; subst ha
        split_ifs <;> simp_all



theorem switchMode_some (G : Game) (s s1 : Dialog) (oD nD oV nV : Int)
    (h : switchMode G s oD nD oV nV = some s1) :
    s1.player = s.player ∧ s1.currentDesignMode = s.currentDesignMode ∧
    s1.currentViewMode = s.currentViewMode ∧
    s1.stackedWidget2 = (if nV = G.modes.SDDVM_COMPONENTS then 1 else 0) ∧
    s1.copyDesignButton =
      (if nV = G.modes.SDDVM_COMPONENTS ∧ oV ≠ G.modes.SDDVM_COMPONENTS then false
       else (leaveView G s oV nV).copyDesignButton) ∧
    s1.editDesignButton =
      (if nV = G.modes.SDDVM_COMPONENTS ∧ oV ≠ G.modes.SDDVM_COMPONENTS then false
       else (leaveView G s oV nV).editDesignButton) ∧
    s1.deleteDesignButton =
      (if nV = G.modes.SDDVM_COMPONENTS then
        (if oV ≠ G.modes.SDDVM_COMPONENTS then false else (leaveView G s oV nV).deleteDesignButton)
       else if nV = G.modes.SDDVM_AVAILABLE ∨ nV = G.modes.SDDVM_ENEMY then false
       else (leaveView G s oV nV).deleteDesignButton) ∧
    s1.chooseComponentBox1 =
      (if nV = G.modes.SDDVM_COMPONENTS then
        addCategories G.tr (if nD = G.modes.SDDDM_SHIPS then shipCategories G.types
          else starbaseCategories G.types)
          (if oV = G.modes.SDDVM_COMPONENTS then [] else s.chooseComponentBox1)
       else (if oV = G.modes.SDDVM_COMPONENTS then [] else s.chooseComponentBox1)) := by
  unfold switchMode at h
  have h1 := enterView_some _ _ _ _ _ _ h
  have h2 := leaveView_fields G s oV nV
  obtain ⟨a1, a2, a3, a4, a5, a6, a7, a8⟩ := h1
  obtain ⟨b1, b2, b3, _, _, _, _, b8, _⟩ := h2
  refine ⟨?_, ?_, ?_, ?_, ?_, ?_, ?_, ?_⟩
  · rw [a1]; exact b1
  · rw [a2]; exact b2
  · rw [a3]; exact b3
  · rw [a4]
  · rw [a5]
  · rw [a6]
  · rw [a7]
  · rw [a8]; simp only [b8]

theorem switchMode_designs (G : Game) (s s1 : Dialog) (oD nD oV nV : Int)
    (h : switchMode G s oD nD oV nV = some s1) :
    (nV = G.modes.SDDVM_COMPONENTS →
      s1.chooseDesignBox = (if oV = G.modes.SDDVM_COMPONENTS then s.chooseDesignBox else [])) ∧
    (nV ≠ G.modes.SDDVM_COMPONENTS → nV = G.modes.SDDVM_EXISTING →
      (existingLoop s.player (decide (nD = G.modes.SDDDM_SHIPS)) (designLimit G nD) 0 []
        (if oV = G.modes.SDDVM_COMPONENTS then s.chooseDesignBox else [])).map Prod.snd =
        some s1.chooseDesignBox) ∧
    (nV ≠ G.modes.SDDVM_COMPONENTS → nV ≠ G.modes.SDDVM_EXISTING →
      nV = G.modes.SDDVM_AVAILABLE →
      s1.chooseDesignBox =
        addHulls s.player
          (if nD = G.modes.SDDDM_SHIPS then G.types.CT_HULL else G.types.CT_BASE) G.GetComponents
          (if oV = G.modes.SDDVM_COMPONENTS then s.chooseDesignBox else [])) ∧
    (nV ≠ G.modes.SDDVM_COMPONENTS → nV ≠ G.modes.SDDVM_EXISTING →
      nV ≠ G.modes.SDDVM_AVAILABLE →
      s1.chooseDesignBox = (if oV = G.modes.SDDVM_COMPONENTS then s.chooseDesignBox else [])) := by
  unfold switchMode at h
  have h1 := enterView_designs _ _ _ _ _ _ h
  have h2 := leaveView_fields G s oV nV
  obtain ⟨a1, a2, a3, a4⟩ := h1
  obtain ⟨b1, _, _, _, _, _, _, _, b9⟩ := h2
  simp only [populateAvailableHullTypes] at a3
  simp only [b1, b9] at a1 a2 a3 a4
  exact ⟨a1, a2, a3, a4⟩

theorem setDesignMode_some (G : Game) (s s2 : Dialog) (d : Int)
    (h : setDesignMode G s d = some s2) :
    ∃ s1, switchMode G s s.currentDesignMode d s.currentViewMode s.currentViewMode = some s1 ∧
      s2 = { s1 with currentDesignMode := d } := by
  unfold setDesignMode at h
  simp only [Option.map_eq_some'] at h
  obtain ⟨s1, h1, rfl⟩ := h
  exact ⟨s1, h1, rfl⟩

theorem setViewMode_some (G : Game) (s s2 : Dialog) (v : Int)
    (h : setViewMode G s v = some s2) :
    ∃ s1, switchMode G s s.currentDesignMode s.currentDesignMode s.currentViewMode v = some s1 ∧
      s2 = { s1 with currentViewMode := v } := by
  unfold setViewMode at h
  simp only [Option.map_eq_some'] at h
  obtain ⟨s1, h1, rfl⟩ := h
  exact ⟨s1, h1, rfl⟩

theorem construct_some (G : Game) (player : Player) (ui : Widgets) (s : Dialog)
    (h : construct G player ui = some s) :
    ∃ items, s = Dialog.mk { ui with chooseDesignBox := items } player
      G.modes.SDDDM_SHIPS G.modes.SDDVM_EXISTING := by
  unfold construct at h
  obtain ⟨items, rfl⟩ := populateExistingDesigns_frame _ _ _ _ h
  exact ⟨items, rfl⟩

/-- A property that the constructor establishes and every allowed slot call
preserves holds after every session of allowed calls. -/
theorem session_induction (G : Game) (player : Player) (ui : Widgets)
    (P : Dialog → Prop) (Q : SlotCall → Prop)
    (init : ∀ s, construct G player ui = some s → P s)
    (step : ∀ s c s1, P s → Q c → c.run G s = some s1 → P s1) :
    ∀ (calls : List SlotCall) (s : Dialog), (∀ c ∈ calls, Q c) →
      session G player ui calls = some s → P s := by
  have run : ∀ (calls : List SlotCall) (s0 s : Dialog), (∀ c ∈ calls, Q c) → P s0 →
      runCalls G s0 calls = some s → P s := by
    intro calls
    induction calls with
    | nil =>
      intro s0 s _ h0 h
      simp only [runCalls, Option.some.injEq] at h
      exact h ▸ h0
    | cons c rest ih =>
      intro s0 s hq h0 h
      simp only [runCalls, Option.bind_eq_some] at h
      obtain ⟨s1, h1, h2⟩ := h
      exact ih s1 s (fun c1 hc1 => hq c1 (List.mem_cons_of_mem _ hc1))
        (step s0 c s1 h0 (hq c (List.mem_cons_self _ _)) h1) h2
  intro calls s hq h
  unfold session at h
  simp only [Option.bind_eq_some] at h
  obtain ⟨s0, h0, h1⟩ := h
  exact run calls s0 s hq (init s0 h0) h1


/-! ## The button set follows the view mode -/

/-- The three design buttons are enabled as the view mode `v` prescribes. -/
theorem buttons_step (G : Game) (hd : G.modes.Distinct) (s s1 : Dialog) (oD nD nV : Int)
    (hv : G.modes.IsViewMode s.currentViewMode) (hn : G.modes.IsViewMode nV)
    (hs : (s.currentViewMode = G.modes.SDDVM_EXISTING →
        s.copyDesignButton = true ∧ s.editDesignButton = true ∧ s.deleteDesignButton = true) ∧
      (s.currentViewMode = G.modes.SDDVM_AVAILABLE ∨ s.currentViewMode = G.modes.SDDVM_ENEMY →
        s.copyDesignButton = true ∧ s.editDesignButton = true ∧ s.deleteDesignButton = false) ∧
      (s.currentViewMode = G.modes.SDDVM_COMPONENTS →
        s.copyDesignButton = false ∧ s.editDesignButton = false ∧ s.deleteDesignButton = false))
    (h : switchMode G s oD nD s.currentViewMode nV = some s1) :
    (nV = G.modes.SDDVM_EXISTING →
        s1.copyDesignButton = true ∧ s1.editDesignButton = true ∧ s1.deleteDesignButton = true) ∧
      (nV = G.modes.SDDVM_AVAILABLE ∨ nV = G.modes.SDDVM_ENEMY →
        s1.copyDesignButton = true ∧ s1.editDesignButton = true ∧ s1.deleteDesignButton = false) ∧
      (nV = G.modes.SDDVM_COMPONENTS →
        s1.copyDesignButton = false ∧ s1.editDesignButton = false ∧ s1.deleteDesignButton = false) := by
  obtain ⟨_, _, _, _, c5, c6, c7, _⟩ := switchMode_some _ _ _ _ _ _ _ h
  obtain ⟨_, _, _, _, l5, l6, l7, _, _⟩ := leaveView_fields G s s.currentViewMode nV
  rw [l5] at c5; rw [l6] at c6; rw [l7] at c7
  obtain ⟨d1, d2, d3, d4, d5, d6, d7⟩ := hd
  rcases hv with hv | hv | hv | hv <;> rcases hn with hn | hn | hn | hn <;>
    simp_all [Ne.symm d2, Ne.symm d3, Ne.symm d4, Ne.symm d5, Ne.symm d6, Ne.symm d7]


theorem session_modes (G : Game) (player : Player) (ui : Widgets) (calls : List SlotCall)
    (s : Dialog) (hq : ∀ c ∈ calls, c.Enumerated G.modes)
    (h : session G player ui calls = some s) :
    G.modes.IsDesignMode s.currentDesignMode ∧ G.modes.IsViewMode s.currentViewMode ∧
      s.player = player := by
  refine session_induction G player ui
    (fun s => G.modes.IsDesignMode s.currentDesignMode ∧ G.modes.IsViewMode s.currentViewMode ∧
      s.player = player) (fun c => c.Enumerated G.modes) ?_ ?_ calls s hq h
  · intro s0 h0
    obtain ⟨items, rfl⟩ := construct_some _ _ _ _ h0
    exact ⟨Or.inl rfl, Or.inl rfl, rfl⟩
  · intro s0 c s1 hp hc hrun
    cases c with
    | designMode d =>
      obtain ⟨s2, h2, rfl⟩ := setDesignMode_some _ _ _ _ hrun
      obtain ⟨a1, _, a3, _⟩ := switchMode_some _ _ _ _ _ _ _ h2
      exact ⟨hc, by simpa [a3] using hp.2.1, by simpa [a1] using hp.2.2⟩
    | viewMode v =>
      obtain ⟨s2, h2, rfl⟩ := setViewMode_some _ _ _ _ hrun
      obtain ⟨a1, a2, _, _⟩ := switchMode_some _ _ _ _ _ _ _ h2
      exact ⟨by simpa [a2] using hp.1, hc, by simpa [a1] using hp.2.2⟩

theorem sample_distinct : sampleGame.modes.Distinct := by
  decide

theorem sample_enumerated : ∀ c ∈ sampleCalls, c.Enumerated sampleGame.modes := by
  simp [sampleCalls, SlotCall.Enumerated, ModeIds.IsDesignMode, ModeIds.IsViewMode, sampleGame,
    sampleModes]

theorem sample_session : session sampleGame samplePlayer sampleUi sampleCalls = some sampleAfter := by
  simp +decide [session, construct, sampleCalls, runCalls, SlotCall.run, setDesignMode, setViewMode,
    switchMode, leaveView, enterView, populateExistingDesigns, populateAvailableHullTypes,
    setComponentCategory, existingLoop, designLimit, addHulls, addComponents, addCategories,
    itemMask, shipCategories, starbaseCategories, bitOr, sampleGame, sampleModes, sampleTypes,
    samplePlayer, sampleUi, sampleAfter, sampleComponent]

/-- C1: in every state reached from the constructor (the three buttons enabled by
`setupUi`) by slot calls with enumerated modes, the enabled buttons are those of
the current view mode: all three in the existing designs view, copy and edit but
not delete in the available hulls and enemy hulls views, none in the components
view; and the view mode is one of these four. -/
theorem buttons_follow_view_mode (G : Game) (player : Player) (ui : Widgets)
    (calls : List SlotCall) (s : Dialog) (hd : G.modes.Distinct)
    (hui : ui.copyDesignButton = true ∧ ui.editDesignButton = true ∧ ui.deleteDesignButton = true)
    (hq : ∀ c ∈ calls, c.Enumerated G.modes)
    (h : session G player ui calls = some s) :
    G.modes.IsViewMode s.currentViewMode ∧
    (s.currentViewMode = G.modes.SDDVM_EXISTING →
      s.copyDesignButton = true ∧ s.editDesignButton = true ∧ s.deleteDesignButton = true) ∧
    (s.currentViewMode = G.modes.SDDVM_AVAILABLE ∨ s.currentViewMode = G.modes.SDDVM_ENEMY →
      s.copyDesignButton = true ∧ s.editDesignButton = true ∧ s.deleteDesignButton = false) ∧
    (s.currentViewMode = G.modes.SDDVM_COMPONENTS →
      s.copyDesignButton = false ∧ s.editDesignButton = false ∧ s.deleteDesignButton = false) := by
  refine session_induction G player ui
    (fun s => G.modes.IsViewMode s.currentViewMode ∧
      (s.currentViewMode = G.modes.SDDVM_EXISTING →
        s.copyDesignButton = true ∧ s.editDesignButton = true ∧ s.deleteDesignButton = true) ∧
      (s.currentViewMode = G.modes.SDDVM_AVAILABLE ∨ s.currentViewMode = G.modes.SDDVM_ENEMY →
        s.copyDesignButton = true ∧ s.editDesignButton = true ∧ s.deleteDesignButton = false) ∧
      (s.currentViewMode = G.modes.SDDVM_COMPONENTS →
        s.copyDesignButton = false ∧ s.editDesignButton = false ∧ s.deleteDesignButton = false))
    (fun c => c.Enumerated G.modes) ?_ ?_ calls s hq h
  · intro s0 h0
    obtain ⟨items, rfl⟩ := construct_some _ _ _ _ h0
    obtain ⟨_, d2, d3, d4, _, _, _⟩ := hd
    exact ⟨Or.inl rfl, fun _ => hui, fun hc => by rcases hc with hc | hc <;> simp_all,
      fun hc => by simp_all⟩
  · intro s0 c s1 hp hc hrun
    cases c with
    | designMode d =>
      obtain ⟨s2, h2, rfl⟩ := setDesignMode_some _ _ _ _ hrun
      obtain ⟨_, _, a3, _⟩ := switchMode_some _ _ _ _ _ _ _ h2
      have hb := buttons_step G hd s0 s2 _ _ _ hp.1 hp.1 hp.2 h2
      simpa [a3] using And.intro hp.1 hb
    | viewMode v =>
      obtain ⟨s2, h2, rfl⟩ := setViewMode_some _ _ _ _ hrun
      have hb := buttons_step G hd s0 s2 _ _ _ hp.1 hc hp.2 h2
      exact ⟨hc, hb⟩

/-- C1 at the sample session, which ends in the available hulls view: copy and
edit enabled, delete disabled. -/
theorem buttons_follow_view_mode_witness :
    session sampleGame samplePlayer sampleUi sampleCalls = some sampleAfter ∧
    sampleAfter.copyDesignButton = true ∧ sampleAfter.editDesignButton = true ∧
      sampleAfter.deleteDesignButton = false :=
  ⟨sample_session,
    (buttons_follow_view_mode sampleGame samplePlayer sampleUi sampleCalls sampleAfter
      sample_distinct ⟨rfl, rfl, rfl⟩ sample_enumerated sample_session).2.2.1 (Or.inl rfl)⟩


/-! ## The stored modes -/

/-- C2, as it fails: the slot `setDesignMode(int)` stores whatever `int` it is
called with; in the sample game, where the design modes are 0 and 1, the call
`setDesignMode(2)` returns and leaves `currentDesignMode` at 2. -/
theorem setDesignMode_stores_any_int :
    (session sampleGame samplePlayer sampleUi [SlotCall.designMode 2]).map
        (fun s => s.currentDesignMode) = some 2 ∧
      (2 : Int) ≠ sampleGame.modes.SDDDM_SHIPS ∧ (2 : Int) ≠ sampleGame.modes.SDDDM_STARBASES := by
  refine ⟨?_, by decide, by decide⟩
  simp +decide [session, construct, runCalls, SlotCall.run, setDesignMode, switchMode, leaveView,
    enterView, populateExistingDesigns, existingLoop, designLimit, sampleGame, sampleModes,
    samplePlayer, sampleUi]

/-- C2, amended: in every state reached from the constructor by slot calls that
pass an enumerated mode (the calls the constructor's signal mappers make),
`currentDesignMode` is one of the enumerated design modes and `currentViewMode`
is one of the enumerated view modes. -/
theorem modes_stay_enumerated (G : Game) (player : Player) (ui : Widgets)
    (calls : List SlotCall) (s : Dialog) (hq : ∀ c ∈ calls, c.Enumerated G.modes)
    (h : session G player ui calls = some s) :
    (s.currentDesignMode = G.modes.SDDDM_SHIPS ∨ s.currentDesignMode = G.modes.SDDDM_STARBASES) ∧
    (s.currentViewMode = G.modes.SDDVM_EXISTING ∨ s.currentViewMode = G.modes.SDDVM_AVAILABLE ∨
      s.currentViewMode = G.modes.SDDVM_ENEMY ∨ s.currentViewMode = G.modes.SDDVM_COMPONENTS) :=
  ⟨(session_modes G player ui calls s hq h).1, (session_modes G player ui calls s hq h).2.1⟩

/-- C2, amended, at the sample session: it ends in starbase mode, in the
available hulls view. -/
theorem modes_stay_enumerated_witness :
    session sampleGame samplePlayer sampleUi sampleCalls = some sampleAfter ∧
    (sampleAfter.currentDesignMode = sampleGame.modes.SDDDM_SHIPS ∨
      sampleAfter.currentDesignMode = sampleGame.modes.SDDDM_STARBASES) ∧
    (sampleAfter.currentViewMode = sampleGame.modes.SDDVM_EXISTING ∨
      sampleAfter.currentViewMode = sampleGame.modes.SDDVM_AVAILABLE ∨
      sampleAfter.currentViewMode = sampleGame.modes.SDDVM_ENEMY ∨
      sampleAfter.currentViewMode = sampleGame.modes.SDDVM_COMPONENTS) :=
  ⟨sample_session,
    modes_stay_enumerated sampleGame samplePlayer sampleUi sampleCalls sampleAfter
      sample_enumerated sample_session⟩

/-! ## The page of the stacked widget -/

theorem int_land_zero (t : Int) : Int.land t 0 = 0 := by
  by_contra h
  obtain ⟨k, hk⟩ := (int_ne_zero_iff_testBit _).mp h
  have h0 : Int.testBit 0 k = false := by simp [Int.testBit]
  rw [Int.testBit_land, h0] at hk
  simp at hk

theorem itemMask_get (box : List (String × Int)) (k : Nat) (item : String × Int)
    (h : box[k]? = some item) : itemMask box (k : Int) = item.2 := by
  unfold itemMask
  have : ¬ ((k : Int) < 0) := by omega
  simp [this, h]

theorem itemMask_none (box : List (String × Int)) (index : Int)
    (h : index < 0 ∨ (box.length : Int) ≤ index) : itemMask box index = 0 := by
  unfold itemMask
  by_cases hneg : index < 0
  · simp [hneg]
  · have hlen : box.length ≤ index.toNat := by omega
    simp [hneg, List.getElem?_eq_none hlen]

/-- C3: after `setComponentCategory(index)`, whatever the component list held
before, it holds the names of the components that are buildable by the player
and whose type has a bit in common with the mask, one entry each, in the order
of the game's component collection; the mask is the item data at position
`index` of the category box, and for an index without an item it is 0 and the
list is empty. -/
theorem setComponentCategory_lists (G : Game) (s : Dialog) :
    (∀ (k : Nat) (item : String × Int), s.chooseComponentBox1[k]? = some item →
      (setComponentCategory G s (k : Int)).componentListWidget1 =
        (G.GetComponents.filter
          (fun c => c.IsBuildable s.player && Int.land c.GetType item.2 != 0)).map
          Component.GetName) ∧
    (∀ (index : Int), index < 0 ∨ (s.chooseComponentBox1.length : Int) ≤ index →
      (setComponentCategory G s index).componentListWidget1 =
        (G.GetComponents.filter
          (fun c => c.IsBuildable s.player && Int.land c.GetType 0 != 0)).map
          Component.GetName ∧
      (setComponentCategory G s index).componentListWidget1 = []) := by
  constructor
  · intro k item h
    simp only [setComponentCategory, addComponents_eq, itemMask_get _ _ _ h, List.nil_append]
  · intro index h
    simp only [setComponentCategory, addComponents_eq, itemMask_none _ _ h, List.nil_append]
    simp [int_land_zero]

/-- C3 at the sample dialog: index 2 holds the scanner mask, index 7 has no item. -/
theorem setComponentCategory_lists_witness :
    (setComponentCategory sampleGame sampleDialog 2).componentListWidget1 = ["Radar"] ∧
    (setComponentCategory sampleGame sampleDialog 7).componentListWidget1 = [] := by
  constructor
  · have h := (setComponentCategory_lists sampleGame sampleDialog).1 2 ("Scanner", 256) rfl
    exact h.trans (by simp +decide [sampleGame, sampleComponent, sampleDialog])
  · exact ((setComponentCategory_lists sampleGame sampleDialog).2 7 (Or.inr (by decide))).2

/-! ## The existing designs -/

theorem slotEvents_lookups (player : Player) (ships : Bool) (slots : List Int) :
    (slots.flatMap (slotEvents player ships)).filter SlotEvent.isLookup =
      slots.map (fun i => if ships then SlotEvent.shipLookup i else SlotEvent.baseLookup i) := by
  induction slots with
  | nil => rfl
  | cons i rest ih =>
    simp only [List.flatMap_cons, List.filter_append, ih, List.map_cons]
    cases hsl : slotOf player ships i <;> cases ships <;>
      simp [slotEvents, hsl, SlotEvent.isLookup]

theorem slotEvents_nameRead (player : Player) (ships : Bool) (slots : List Int) (i : Int)
    (h : SlotEvent.nameRead i ∈ slots.flatMap (slotEvents player ships)) :
    i ∈ slots ∧ slotOf player ships i ≠ none := by
  simp only [List.mem_flatMap] at h
  obtain ⟨j, hj, hij⟩ := h
  cases hsl : slotOf player ships j <;> cases ships <;> simp [slotEvents, hsl] at hij
  all_goals
    subst hij
    exact ⟨hj, by simp [hsl]⟩

/-- The loop of `populateExistingDesigns` in closed form, when its bound is not
negative. -/
theorem populateExistingDesigns_closed (G : Game) (s : Dialog) (designMode : Int)
    (hmax : 0 ≤ designLimit G designMode) :
    existingLoop s.player (decide (designMode = G.modes.SDDDM_SHIPS)) (designLimit G designMode)
        0 [] s.chooseDesignBox =
      some ((slotsBelow (designLimit G designMode)).flatMap
              (slotEvents s.player (decide (designMode = G.modes.SDDDM_SHIPS))),
            s.chooseDesignBox ++ (slotsBelow (designLimit G designMode)).filterMap
              (fun j => (slotOf s.player (decide (designMode = G.modes.SDDDM_SHIPS)) j).map
                Ship.GetName)) := by
  have hloop := existingLoop_eq s.player (decide (designMode = G.modes.SDDDM_SHIPS))
    (designLimit G designMode).toNat 0 [] s.chooseDesignBox
  have hcast : (0 : Int) + ((designLimit G designMode).toNat : Int) = designLimit G designMode := by
    omega
  have hfun : (fun (k : Nat) => (0 : Int) + (k : Int)) = fun (k : Nat) => (k : Int) := by
    funext k; simp
  rw [hcast, hfun] at hloop
  simpa only [slotsBelow, List.nil_append] using hloop

theorem designLimit_ships (G : Game) (designMode : Int)
    (h : designMode = G.modes.SDDDM_SHIPS) : designLimit G designMode = G.MaxShipDesigns := by
  simp [designLimit, h]

theorem designLimit_bases (G : Game) (designMode : Int)
    (h : designMode ≠ G.modes.SDDDM_SHIPS) : designLimit G designMode = G.MaxBaseDesigns := by
  simp [designLimit, h]

/-- C4: let max be the rule constant `MaxShipDesigns` when the design mode is
`SDDDM_SHIPS` and `MaxBaseDesigns` for any other mode. When max is not negative,
`populateExistingDesigns` returns; it looks up the slots 0, 1, ..., max - 1 in
increasing order, with `GetShipDesign` in ship mode and with `GetBaseDesign`
otherwise; it reads a name only from a slot whose lookup is not `NULL`; and it
appends to the design list, after what the list held, the names of the slots
that are not `NULL`, in slot order. -/
theorem populateExistingDesigns_slots (G : Game) (s : Dialog) (designMode : Int)
    (hmax : 0 ≤ (if designMode = G.modes.SDDDM_SHIPS then G.MaxShipDesigns
      else G.MaxBaseDesigns)) :
    populateExistingDesigns G s designMode =
      some
        { s with
          chooseDesignBox :=
            s.chooseDesignBox ++
              (slotsBelow (if designMode = G.modes.SDDDM_SHIPS then G.MaxShipDesigns
                  else G.MaxBaseDesigns)).filterMap
                (fun i =>
                  (if designMode = G.modes.SDDDM_SHIPS then s.player.GetShipDesign i
                    else s.player.GetBaseDesign i).map Ship.GetName) } ∧
    ∃ log, existingDesignEvents G s designMode = some log ∧
      log =
        (slotsBelow (if designMode = G.modes.SDDDM_SHIPS then G.MaxShipDesigns
            else G.MaxBaseDesigns)).flatMap
          (fun i =>
            (if designMode = G.modes.SDDDM_SHIPS then SlotEvent.shipLookup i
              else SlotEvent.baseLookup i) ::
            (match (if designMode = G.modes.SDDDM_SHIPS then s.player.GetShipDesign i
                else s.player.GetBaseDesign i) with
              | some _ => [SlotEvent.nameRead i]
              | none => [])) ∧
      log.filter SlotEvent.isLookup =
        (slotsBelow (if designMode = G.modes.SDDDM_SHIPS then G.MaxShipDesigns
            else G.MaxBaseDesigns)).map
          (fun i => if designMode = G.modes.SDDDM_SHIPS then SlotEvent.shipLookup i
            else SlotEvent.baseLookup i) ∧
      ∀ i, SlotEvent.nameRead i ∈ log →
        i ∈ slotsBelow (if designMode = G.modes.SDDDM_SHIPS then G.MaxShipDesigns
            else G.MaxBaseDesigns) ∧
        (if designMode = G.modes.SDDDM_SHIPS then s.player.GetShipDesign i
          else s.player.GetBaseDesign i) ≠ none := by
  by_cases hm : designMode = G.modes.SDDDM_SHIPS
  · have hlim := designLimit_ships G designMode hm
    have hloop := populateExistingDesigns_closed G s designMode (by rw [hlim]; simpa [hm] using hmax)
    rw [hlim] at hloop
    simp only [hm, if_true, decide_True] at hloop ⊢
    refine ⟨?_, (slotsBelow G.MaxShipDesigns).flatMap (slotEvents s.player true),
      ?_, ?_, ?_, ?_⟩
    · simp [populateExistingDesigns, designLimit, hloop, slotOf]
    · simp only [existingDesignEvents, designLimit, if_true, decide_True, hloop, Option.map_some']
    · congr 1
    · rw [slotEvents_lookups]
      simp
    · intro i hi
      have h := slotEvents_nameRead _ _ _ _ hi
      exact ⟨h.1, by simpa [slotOf] using h.2⟩
  · have hlim := designLimit_bases G designMode hm
    have hloop := populateExistingDesigns_closed G s designMode (by rw [hlim]; simpa [hm] using hmax)
    rw [hlim] at hloop
    simp only [hm, if_false, decide_False] at hloop ⊢
    refine ⟨?_, (slotsBelow G.MaxBaseDesigns).flatMap (slotEvents s.player false),
      ?_, ?_, ?_, ?_⟩
    · simp [populateExistingDesigns, designLimit, hm, hloop, slotOf]
    · simp only [existingDesignEvents, designLimit, hm, if_false, decide_False, hloop,
        Option.map_some']
    · congr 1
    · rw [slotEvents_lookups]
      simp
    · intro i hi
      have h := slotEvents_nameRead _ _ _ _ hi
      exact ⟨h.1, by simpa [slotOf] using h.2⟩

/-- C4 at the sample dialog: in ship mode (mode 0) the bound is `MaxShipDesigns`
= 3 and the ship slots 0 and 2 hold designs; in starbase mode (mode 1) the bound
is `MaxBaseDesigns` = 2 and the base slot 1 holds a design. -/
theorem populateExistingDesigns_slots_witness :
    (populateExistingDesigns sampleGame sampleDialog 0).map (fun s => s.chooseDesignBox) =
      some ["Old", "Scout", "Destroyer"] ∧
    (populateExistingDesigns sampleGame sampleDialog 1).map (fun s => s.chooseDesignBox) =
      some ["Old", "Fort"] := by
  constructor
  · rw [(populateExistingDesigns_slots sampleGame sampleDialog 0 (by decide)).1]
    decide
  · rw [(populateExistingDesigns_slots sampleGame sampleDialog 1 (by decide)).1]
    decide

/-! ## The available hulls -/

/-- C5: `populateAvailableHullTypes` leaves what the design list held in place and
appends, in the order of the component collection, the names of the components
that are buildable by the player and of type `CT_HULL` in ship mode, of type
`CT_BASE` in any other mode. -/
theorem populateAvailableHullTypes_appends (G : Game) (s : Dialog) (designMode : Int) :
    (populateAvailableHullTypes G s designMode).chooseDesignBox =
      s.chooseDesignBox ++
        (G.GetComponents.filter (fun c => c.IsBuildable s.player &&
          c.IsType (if designMode = G.modes.SDDDM_SHIPS then G.types.CT_HULL
            else G.types.CT_BASE))).map Component.GetName := by
  simp only [populateAvailableHullTypes, addHulls_eq]

/-! ## The design handlers -/

/-- C6: `copyDesign`, `editDesign` and `deleteDesign` return the dialog state they
were called in: modes, button flags, page and the three item views unchanged. -/
theorem design_handlers_change_nothing (s : Dialog) :
    copyDesign s = s ∧ editDesign s = s ∧ deleteDesign s = s :=
  ⟨rfl, rfl, rfl⟩


/-! ## The design list -/

theorem populateExistingDesigns_list (G : Game) (s : Dialog) (m : Int) :
    (populateExistingDesigns G s m).map (fun s1 => s1.chooseDesignBox) =
      (existingLoop s.player (decide (m = G.modes.SDDDM_SHIPS)) (designLimit G m) 0 []
        s.chooseDesignBox).map Prod.snd := by
  simp only [populateExistingDesigns, Option.map_map]
  rfl

theorem designs_step (G : Game) (hd : G.modes.Distinct) (s s1 : Dialog) (oD nD nV : Int)
    (hs : s.currentViewMode = G.modes.SDDVM_COMPONENTS → s.chooseDesignBox = [])
    (h : switchMode G s oD nD s.currentViewMode nV = some s1) :
    (nV = G.modes.SDDVM_EXISTING →
      (existingLoop s1.player (decide (nD = G.modes.SDDDM_SHIPS)) (designLimit G nD) 0 []
        []).map Prod.snd = some s1.chooseDesignBox) ∧
    (nV = G.modes.SDDVM_AVAILABLE →
      addHulls s1.player
        (if nD = G.modes.SDDDM_SHIPS then G.types.CT_HULL else G.types.CT_BASE)
        G.GetComponents [] = s1.chooseDesignBox) ∧
    (nV = G.modes.SDDVM_ENEMY ∨ nV = G.modes.SDDVM_COMPONENTS → s1.chooseDesignBox = []) := by
  have hbox : (if s.currentViewMode = G.modes.SDDVM_COMPONENTS then s.chooseDesignBox else []) =
      [] := by
    split_ifs with hc
    · exact hs hc
    · rfl
  obtain ⟨a1, _⟩ := switchMode_some _ _ _ _ _ _ _ h
  obtain ⟨b1, b2, b3, b4⟩ := switchMode_designs _ _ _ _ _ _ _ h
  rw [hbox] at b1 b2 b3 b4
  rw [a1]
  obtain ⟨_, d2, d3, d4, d5, d6, d7⟩ := hd
  refine ⟨fun he => b2 (he ▸ d4) he, fun ha => (b3 (ha ▸ d6) (ha ▸ Ne.symm d2) ha).symm, ?_⟩
  rintro (he | hc)
  · exact b4 (he ▸ d7) (he ▸ Ne.symm d3) (he ▸ Ne.symm d5)
  · exact b1 hc

/-- C8: with the game fixed and the design list empty after `setupUi`, in every
state reached from the constructor by slot calls with enumerated modes the
design list is determined by the current design mode and view mode: in the
existing designs view it is the list `populateExistingDesigns` makes of an
empty list for the current design mode, in the available hulls view the list
`populateAvailableHullTypes` makes of an empty list for the current design
mode, and in the enemy hulls and components views it is empty. -/
theorem design_list_follows_modes (G : Game) (player : Player) (ui : Widgets)
    (calls : List SlotCall) (s : Dialog) (hd : G.modes.Distinct)
    (hui : ui.chooseDesignBox = [])
    (hq : ∀ c ∈ calls, c.Enumerated G.modes)
    (h : session G player ui calls = some s) :
    (s.currentViewMode = G.modes.SDDVM_EXISTING →
      (populateExistingDesigns G { s with chooseDesignBox := [] } s.currentDesignMode).map
        (fun s1 => s1.chooseDesignBox) = some s.chooseDesignBox) ∧
    (s.currentViewMode = G.modes.SDDVM_AVAILABLE →
      (populateAvailableHullTypes G { s with chooseDesignBox := [] }
        s.currentDesignMode).chooseDesignBox = s.chooseDesignBox) ∧
    (s.currentViewMode = G.modes.SDDVM_ENEMY ∨ s.currentViewMode = G.modes.SDDVM_COMPONENTS →
      s.chooseDesignBox = []) := by
  simp only [populateExistingDesigns_list, populateAvailableHullTypes]
  refine (session_induction G player ui
    (fun s => G.modes.IsViewMode s.currentViewMode ∧
      (s.currentViewMode = G.modes.SDDVM_EXISTING →
        (existingLoop s.player (decide (s.currentDesignMode = G.modes.SDDDM_SHIPS))
          (designLimit G s.currentDesignMode) 0 [] []).map Prod.snd = some s.chooseDesignBox) ∧
      (s.currentViewMode = G.modes.SDDVM_AVAILABLE →
        addHulls s.player
          (if s.currentDesignMode = G.modes.SDDDM_SHIPS then G.types.CT_HULL
            else G.types.CT_BASE) G.GetComponents [] = s.chooseDesignBox) ∧
      (s.currentViewMode = G.modes.SDDVM_ENEMY ∨ s.currentViewMode = G.modes.SDDVM_COMPONENTS →
        s.chooseDesignBox = []))
    (fun c => c.Enumerated G.modes) ?_ ?_ calls s hq h).2
  · intro s0 h0
    have hl := populateExistingDesigns_list G
      (Dialog.mk ui player G.modes.SDDDM_SHIPS G.modes.SDDVM_EXISTING) G.modes.SDDDM_SHIPS
    unfold construct at h0
    rw [h0, hui] at hl
    obtain ⟨items, rfl⟩ := populateExistingDesigns_frame _ _ _ _ h0
    obtain ⟨_, d2, d3, d4, _, _, _⟩ := hd
    refine ⟨Or.inl rfl, fun _ => hl.symm, fun ha => absurd ha d2, ?_⟩
    rintro (he | hc)
    · exact absurd he d3
    · exact absurd hc d4
  · intro s0 c s1 hp hc hrun
    cases c with
    | designMode d =>
      obtain ⟨s2, h2, rfl⟩ := setDesignMode_some _ _ _ _ hrun
      obtain ⟨_, _, a3, _⟩ := switchMode_some _ _ _ _ _ _ _ h2
      have hb := designs_step G hd s0 s2 _ _ _ (fun hc => hp.2.2.2 (Or.inr hc)) h2
      simpa [a3] using And.intro hp.1 hb
    | viewMode v =>
      obtain ⟨s2, h2, rfl⟩ := setViewMode_some _ _ _ _ hrun
      obtain ⟨_, a2, _, _⟩ := switchMode_some _ _ _ _ _ _ _ h2
      have hb := designs_step G hd s0 s2 _ _ _ (fun hc => hp.2.2.2 (Or.inr hc)) h2
      simpa [a2] using And.intro hc hb

/-- C8 at the sample session, which ends in the available hulls view in starbase
mode: the design list is the one buildable base hull. -/
theorem design_list_follows_modes_witness :
    session sampleGame samplePlayer sampleUi sampleCalls = some sampleAfter ∧
    (populateAvailableHullTypes sampleGame { sampleAfter with chooseDesignBox := [] }
      sampleAfter.currentDesignMode).chooseDesignBox = sampleAfter.chooseDesignBox ∧
    sampleAfter.chooseDesignBox = ["Orbital Fort"] :=
  ⟨sample_session,
    (design_list_follows_modes sampleGame samplePlayer sampleUi sampleCalls sampleAfter
      sample_distinct rfl sample_enumerated sample_session).2.1 rfl, rfl⟩


/-! ## The category box -/

theorem addCategories_ships (tr : String → String) (T : CompTypes) :
    addCategories tr (shipCategories T) [] = categoryItems tr (shipCategories T) := by
  simp [addCategories, shipCategories, categoryItems]

theorem addCategories_starbases (tr : String → String) (T : CompTypes) :
    addCategories tr (starbaseCategories T) [] = categoryItems tr (starbaseCategories T) := by
  simp [addCategories, starbaseCategories, categoryItems]

theorem categories_step (G : Game) (s s1 : Dialog) (oD nD nV : Int)
    (hs : s.currentViewMode ≠ G.modes.SDDVM_COMPONENTS → s.chooseComponentBox1 = [])
    (h : switchMode G s oD nD s.currentViewMode nV = some s1) :
    (nV ≠ G.modes.SDDVM_COMPONENTS → s1.chooseComponentBox1 = []) ∧
    (nV = G.modes.SDDVM_COMPONENTS →
      s1.chooseComponentBox1 = categoryItems G.tr
        (if nD = G.modes.SDDDM_SHIPS then shipCategories G.types
          else starbaseCategories G.types)) := by
  have hbox : (if s.currentViewMode = G.modes.SDDVM_COMPONENTS then []
      else s.chooseComponentBox1) = [] := by
    split_ifs with hc
    · rfl
    · exact hs hc
  obtain ⟨_, _, _, _, _, _, _, a8⟩ := switchMode_some _ _ _ _ _ _ _ h
  rw [hbox] at a8
  constructor
  · intro hc
    rw [a8, if_neg hc]
  · intro hc
    rw [a8, if_pos hc]
    split_ifs
    · exact addCategories_ships _ _
    · exact addCategories_starbases _ _

/-- C9: with the category box empty after `setupUi`, in every state reached from
the constructor by slot calls with enumerated modes the category box is empty
outside the components view, and in the components view it holds one item
`(tr title, mask)` for each titled entry of the table of the current design
mode, in table order and nothing else: the 11 entries of `shipCategories` in
ship mode, the 7 entries of `starbaseCategories` in starbase mode. -/
theorem category_box_follows_modes (G : Game) (player : Player) (ui : Widgets)
    (calls : List SlotCall) (s : Dialog) (hd : G.modes.Distinct)
    (hui : ui.chooseComponentBox1 = [])
    (hq : ∀ c ∈ calls, c.Enumerated G.modes)
    (h : session G player ui calls = some s) :
    (s.currentViewMode ≠ G.modes.SDDVM_COMPONENTS → s.chooseComponentBox1 = []) ∧
    (s.currentViewMode = G.modes.SDDVM_COMPONENTS →
      s.currentDesignMode = G.modes.SDDDM_SHIPS →
      s.chooseComponentBox1 = categoryItems G.tr (shipCategories G.types) ∧
      s.chooseComponentBox1.map Prod.snd = ((shipCategories G.types).take 11).map CompCategory.mask ∧
      s.chooseComponentBox1.length = 11) ∧
    (s.currentViewMode = G.modes.SDDVM_COMPONENTS →
      s.currentDesignMode = G.modes.SDDDM_STARBASES →
      s.chooseComponentBox1 = categoryItems G.tr (starbaseCategories G.types) ∧
      s.chooseComponentBox1.map Prod.snd =
        ((starbaseCategories G.types).take 7).map CompCategory.mask ∧
      s.chooseComponentBox1.length = 7) := by
  have inv := session_induction G player ui
    (fun s => (s.currentViewMode ≠ G.modes.SDDVM_COMPONENTS → s.chooseComponentBox1 = []) ∧
      (s.currentViewMode = G.modes.SDDVM_COMPONENTS →
        s.chooseComponentBox1 = categoryItems G.tr
          (if s.currentDesignMode = G.modes.SDDDM_SHIPS then shipCategories G.types
            else starbaseCategories G.types)))
    (fun c => c.Enumerated G.modes) ?_ ?_ calls s hq h
  · obtain ⟨i1, i2⟩ := inv
    refine ⟨i1, ?_, ?_⟩
    · intro hc hm
      have hb := i2 hc
      rw [if_pos hm] at hb
      rw [hb]
      simp [categoryItems, shipCategories]
    · intro hc hm
      have hb := i2 hc
      rw [if_neg (hm ▸ Ne.symm hd.1)] at hb
      rw [hb]
      simp [categoryItems, starbaseCategories]
  · intro s0 h0
    obtain ⟨items, rfl⟩ := construct_some _ _ _ _ h0
    exact ⟨fun _ => hui, fun hc => absurd hc hd.2.2.2.1⟩
  · intro s0 c s1 hp hc hrun
    cases c with
    | designMode d =>
      obtain ⟨s2, h2, rfl⟩ := setDesignMode_some _ _ _ _ hrun
      obtain ⟨_, _, a3, _⟩ := switchMode_some _ _ _ _ _ _ _ h2
      have hb := categories_step G s0 s2 _ _ _ hp.1 h2
      simpa [a3] using hb
    | viewMode v =>
      obtain ⟨s2, h2, rfl⟩ := setViewMode_some _ _ _ _ hrun
      obtain ⟨_, a2, _, _⟩ := switchMode_some _ _ _ _ _ _ _ h2
      have hb := categories_step G s0 s2 _ _ _ hp.1 h2
      simpa [a2] using hb

theorem sample_components_enumerated :
    ∀ c ∈ sampleComponentsCalls, c.Enumerated sampleGame.modes := by
  simp [sampleComponentsCalls, SlotCall.Enumerated, ModeIds.IsDesignMode, ModeIds.IsViewMode,
    sampleGame, sampleModes]

theorem sample_components_session :
    session sampleGame samplePlayer sampleUi sampleComponentsCalls = some sampleInComponents := by
  simp +decide [session, construct, sampleComponentsCalls, runCalls, SlotCall.run, setDesignMode,
    setViewMode, switchMode, leaveView, enterView, populateExistingDesigns,
    populateAvailableHullTypes, setComponentCategory, existingLoop, designLimit, addHulls,
    addComponents, addCategories, itemMask, shipCategories, starbaseCategories, bitOr, sampleGame,
    sampleModes, sampleTypes, samplePlayer, sampleUi, sampleInComponents, sampleComponent]

/-- C9 at the sample session that enters the components view in ship mode and
then switches to starbase mode: the box holds the 7 starbase entries, once. -/
theorem category_box_follows_modes_witness :
    session sampleGame samplePlayer sampleUi sampleComponentsCalls = some sampleInComponents ∧
    sampleInComponents.chooseComponentBox1 =
      categoryItems sampleGame.tr (starbaseCategories sampleGame.types) ∧
    sampleInComponents.chooseComponentBox1.length = 7 :=
  ⟨sample_components_session,
    ((category_box_follows_modes sampleGame samplePlayer sampleUi sampleComponentsCalls
      sampleInComponents sample_distinct rfl sample_components_enumerated
      sample_components_session).2.2 rfl rfl).1, rfl⟩

/-! ## The category "All" -/

theorem int_zero_lor (a : Int) : Int.lor 0 a = a := by
  cases a with
  | ofNat n =>
    show Int.lor (Int.ofNat 0) (Int.ofNat n) = Int.ofNat n
    simp [Int.lor]
  | negSucc n =>
    show Int.lor (Int.ofNat 0) (Int.negSucc n) = Int.negSucc n
    simp [Int.lor, Nat.ldiff]

theorem int_land_bitOr_ne_zero (t : Int) (rest : List Int) :
    ∀ (a : Int), Int.land t (bitOr a rest) ≠ 0 ↔ ∃ x ∈ a :: rest, Int.land t x ≠ 0 := by
  induction rest with
  | nil => intro a; simp [bitOr]
  | cons b rest ih =>
    intro a
    have hstep : bitOr a (b :: rest) = bitOr (Int.lor a b) rest := rfl
    rw [hstep, ih, List.exists_mem_cons_iff, int_land_lor_ne_zero, List.exists_mem_cons_iff,
      List.exists_mem_cons_iff, or_assoc]

theorem itemMask_succ (e : String × Int) (rest : List (String × Int)) (k : Nat) :
    itemMask (e :: rest) ((k + 1 : Nat) : Int) = itemMask rest (k : Int) := by
  unfold itemMask
  have h1 : ¬ (((k + 1 : Nat) : Int) < 0) := by omega
  have h2 : ¬ ((k : Int) < 0) := by omega
  rw [if_neg h1, if_neg h2, Int.toNat_ofNat, Int.toNat_ofNat, List.getElem?_cons_succ]

theorem exists_specific_index (e : String × Int) (rest : List (String × Int))
    (P : Int → Prop) :
    (∃ k : Nat, 1 ≤ k ∧ k < (e :: rest).length ∧ P (itemMask (e :: rest) (k : Int))) ↔
      ∃ x ∈ rest.map Prod.snd, P x := by
  constructor
  · rintro ⟨k, h1, h2, hp⟩
    obtain ⟨j, rfl⟩ : ∃ j, k = j + 1 := ⟨k - 1, by omega⟩
    rw [itemMask_succ] at hp
    have hj : j < rest.length := by simpa using h2
    have hget : rest[j]? = some rest[j] := List.getElem?_eq_getElem hj
    rw [itemMask_get rest j _ hget] at hp
    exact ⟨rest[j].2, List.mem_map.mpr ⟨rest[j], List.getElem_mem hj, rfl⟩, hp⟩
  · rintro ⟨x, hx, hp⟩
    obtain ⟨item, hitem, rfl⟩ := List.mem_map.mp hx
    obtain ⟨j, hj, rfl⟩ := List.getElem_of_mem hitem
    refine ⟨j + 1, by omega, by simpa using hj, ?_⟩
    rw [itemMask_succ, itemMask_get rest j _ (List.getElem?_eq_getElem hj)]
    exact hp

theorem isListed_all (player : Player) (c : Component) (title : String) (a : Int)
    (rest : List Int) (items : List (String × Int)) (hitems : items.map Prod.snd = a :: rest) :
    isListed player (itemMask ((title, bitOr a rest) :: items) 0) c = true ↔
      ∃ k : Nat, 1 ≤ k ∧ k < ((title, bitOr a rest) :: items).length ∧
        isListed player (itemMask ((title, bitOr a rest) :: items) (k : Int)) c = true := by
  rw [exists_specific_index _ _ (fun m => isListed player m c = true), hitems]
  have h0 : itemMask ((title, bitOr a rest) :: items) 0 = bitOr a rest := by
    simp [itemMask]
  rw [h0]
  simp only [isListed, Bool.and_eq_true, bne_iff_ne, int_land_bitOr_ne_zero]
  constructor
  · rintro ⟨hb, x, hx, hl⟩
    exact ⟨x, hx, hb, hl⟩
  · rintro ⟨x, hx, hb, hl⟩
    exact ⟨hb, x, hx, hl⟩


theorem setComponentCategory_isListed (G : Game) (s : Dialog) (index : Int) :
    (setComponentCategory G s index).componentListWidget1 =
      (G.GetComponents.filter
        (isListed s.player (itemMask s.chooseComponentBox1 index))).map Component.GetName := by
  simp only [setComponentCategory, addComponents_eq, List.nil_append]
  rfl

theorem isListed_all_of_table (G : Game) (s : Dialog) (c : Component)
    (hbox : s.chooseComponentBox1 = categoryItems G.tr (shipCategories G.types) ∨
      s.chooseComponentBox1 = categoryItems G.tr (starbaseCategories G.types)) :
    isListed s.player (itemMask s.chooseComponentBox1 0) c = true ↔
      ∃ k : Nat, 1 ≤ k ∧ k < s.chooseComponentBox1.length ∧
        isListed s.player (itemMask s.chooseComponentBox1 (k : Int)) c = true := by
  rcases hbox with hbox | hbox
  · rw [hbox]
    exact isListed_all s.player c (G.tr "All") G.types.CT_ARMOR
      [G.types.CT_SHIELD, G.types.CT_WEAPON, G.types.CT_BOMB, G.types.CT_ELEC,
        G.types.CT_ENGINE, G.types.CT_MINELAY, G.types.CT_MINER, G.types.CT_SCANNER,
        G.types.CT_MECH]
      (categoryItems G.tr (shipCategories G.types)).tail rfl
  · rw [hbox]
    exact isListed_all s.player c (G.tr "All") G.types.CT_ARMOR
      [G.types.CT_SHIELD, G.types.CT_WEAPON, G.types.CT_ELEC, G.types.CT_MECH,
        G.types.CT_ORBITAL]
      (categoryItems G.tr (starbaseCategories G.types)).tail rfl

/-- C10: whatever the values of the `CT_*` constants, in `shipCategories` and in
`starbaseCategories` the mask of the first entry ("All") is the bitwise OR of
the masks of the other titled entries; so, with the category box holding the
entries of one of the tables, a component is listed by `setComponentCategory`
at index 0 exactly when it is listed at one of the other indices of the box,
and a name is in the component list for "All" exactly when it is in the
component list of one of the specific categories. -/
theorem all_category_covers (G : Game) (s : Dialog)
    (hbox : s.chooseComponentBox1 = categoryItems G.tr (shipCategories G.types) ∨
      s.chooseComponentBox1 = categoryItems G.tr (starbaseCategories G.types)) :
    ((categoryItems G.tr (shipCategories G.types)).head?.map Prod.snd =
      some (((categoryItems G.tr (shipCategories G.types)).tail.map Prod.snd).foldl Int.lor 0)) ∧
    ((categoryItems G.tr (starbaseCategories G.types)).head?.map Prod.snd =
      some (((categoryItems G.tr (starbaseCategories G.types)).tail.map Prod.snd).foldl
        Int.lor 0)) ∧
    (∀ (index : Int), (setComponentCategory G s index).componentListWidget1 =
      (G.GetComponents.filter
        (isListed s.player (itemMask s.chooseComponentBox1 index))).map Component.GetName) ∧
    (∀ (c : Component), isListed s.player (itemMask s.chooseComponentBox1 0) c = true ↔
      ∃ k : Nat, 1 ≤ k ∧ k < s.chooseComponentBox1.length ∧
        isListed s.player (itemMask s.chooseComponentBox1 (k : Int)) c = true) ∧
    (∀ (name : String), name ∈ (setComponentCategory G s 0).componentListWidget1 ↔
      ∃ k : Nat, 1 ≤ k ∧ k < s.chooseComponentBox1.length ∧
        name ∈ (setComponentCategory G s (k : Int)).componentListWidget1) := by
  refine ⟨?_, ?_, setComponentCategory_isListed G s, fun c => isListed_all_of_table G s c hbox,
    ?_⟩
  · simp [categoryItems, shipCategories, bitOr, int_zero_lor]
  · simp [categoryItems, starbaseCategories, bitOr, int_zero_lor]
  · intro name
    simp only [setComponentCategory_isListed, List.mem_map, List.mem_filter]
    constructor
    · rintro ⟨c, ⟨hc, hl⟩, rfl⟩
      obtain ⟨k, h1, h2, h3⟩ := (isListed_all_of_table G s c hbox).mp hl
      exact ⟨k, h1, h2, c, ⟨hc, h3⟩, rfl⟩
    · rintro ⟨k, h1, h2, c, ⟨hc, hl⟩, rfl⟩
      exact ⟨c, ⟨hc, (isListed_all_of_table G s c hbox).mpr ⟨k, h1, h2, hl⟩⟩, rfl⟩

/-- C10 at the sample dialog in the components view of starbase mode: the list
for "All" is the list for armor followed by the list for weapons. -/
theorem all_category_covers_witness :
    sampleInComponents.chooseComponentBox1 =
      categoryItems sampleGame.tr (starbaseCategories sampleGame.types) ∧
    ("Laser" ∈ (setComponentCategory sampleGame sampleInComponents 0).componentListWidget1 ↔
      ∃ k : Nat, 1 ≤ k ∧ k < sampleInComponents.chooseComponentBox1.length ∧
        "Laser" ∈ (setComponentCategory sampleGame sampleInComponents (k : Int)).componentListWidget1) :=
  ⟨rfl, (all_category_covers sampleGame sampleInComponents (Or.inr rfl)).2.2.2.2 "Laser"⟩

end FreeStars
